import Mathlib

/-!
# Verification of the `scene_plus` scene-definition store

Shallow embedding of `custom_components/scene_plus/scene_utils.py` and
`custom_components/scene_plus/helpers.py`: the Python value model, the
dict operations the code relies on, serialization capture (`safe_item`),
the atomic writer, the document loader, the merge engine and the
orchestrating update operation.  Python dicts are modelled as ordered
association lists with insertion-order update semantics; machine-level
I/O failures are modelled by an injected failure step.
-/

set_option maxHeartbeats 1600000

namespace ScenePlus

/-- A Python runtime value as it appears in the scene data flow:
`None`, scalars, lists, string-keyed dicts, `Enum` instances (carrying
their `.value`), and otherwise-opaque runtime objects.  An `obj` carries
an identity tag and a flag saying whether inspecting it raises (the
`except Exception` path of `safe_item`). -/
inductive Val where
  | vnone : Val
  | str : String → Val
  | int : Int → Val
  | bool : Bool → Val
  | list : List Val → Val
  | dict : List (String × Val) → Val
  | enumv : Val → Val
  | obj : Nat → Bool → Val

/-- A Python dict with string keys, as an ordered association list. -/
abbrev Dict := List (String × Val)

/-- First-match association-list lookup: Python `d.get(k)` / `d[k]`
(keys are unique in a real dict, so first match is the match). -/
def alookup {α : Type} : List (String × α) → String → Option α
  | [], _ => none
  | (k, v) :: rest, k' => if k = k' then some v else alookup rest k'

/-- Python `d[k] = v`: replace in place when the key exists (keeping its
position), else append at the end (insertion order). -/
def aset {α : Type} (d : List (String × α)) (k : String) (v : α) :
    List (String × α) :=
  if (alookup d k).isSome then
    d.map (fun kv => if kv.1 = k then (k, v) else kv)
  else
    d ++ [(k, v)]

/-- `dget d k` is Python `d.get(k)` on a scene dict. -/
def dget (d : Dict) (k : String) : Option Val := alookup d k

/-- Python `k in d`. -/
def hasKey (d : Dict) (k : String) : Bool := (dget d k).isSome

/-- Python `d.get(k, default)`. -/
def dgetD (d : Dict) (k : String) (dflt : Val) : Val := (dget d k).getD dflt

/-- `dset` is Python `d[k] = v` on a scene dict. -/
def dset (d : Dict) (k : String) (v : Val) : Dict := aset d k v

/-- Python `value == some_string` for an arbitrary runtime value compared
against a `str` (as in `scene.get("id") == scene_id`): true exactly when
the value is that string. -/
def valEqStr : Val → String → Bool
  | .str s, t => s = t
  | _, _ => false

/-- Python `value is None`. -/
def isVNone : Val → Bool
  | .vnone => true
  | _ => false

mutual
/-- `helpers.safe_item`: unwrap `Enum` values, recurse into lists and
dicts, return scalars unchanged; if handling the item raises, catch the
exception and return `None`. -/
def safe_item : Val → Val
  | .vnone => .vnone
  | .str s => .str s
  | .int n => .int n
  | .bool b => .bool b
  | .enumv v => v
  | .list xs => .list (safe_items xs)
  | .dict kvs => .dict (safe_pairs kvs)
  | .obj i r => if r then .vnone else .obj i r

/-- The list comprehension `[safe_item(x) for x in item]`. -/
def safe_items : List Val → List Val
  | [] => []
  | x :: xs => safe_item x :: safe_items xs

/-- The dict comprehension `{str(k): safe_item(v) for k, v in item.items()}`
(keys are already strings in the model). -/
def safe_pairs : List (String × Val) → List (String × Val)
  | [] => []
  | (k, v) :: kvs => (k, safe_item v) :: safe_pairs kvs
end

/-- Python `str(x)` restricted to the scalar values a Home Assistant
state carries; non-scalars get an opaque rendering (never produced by
real states, and no claim depends on it). -/
def pyStr : Val → String
  | .str s => s
  | .int n => toString n
  | .bool b => if b then "True" else "False"
  | .vnone => "None"
  | _ => "object"

/-- Modelled from the spec: a token of the serialized document text.
The repository delegates serialization to `ruamel.yaml` (round-trip
mode), which is not under `src/`; the spec requires a UTF-8 text format
whose load inverts dump, preserving order and unknown fields.  The text
is modelled at token granularity: scalars, list brackets, and map
brackets with explicit keys. -/
inductive Tok where
  | tnull : Tok
  | tbool : Bool → Tok
  | tint : Int → Tok
  | tstr : String → Tok
  | lopen : Tok
  | lclose : Tok
  | mopen : Tok
  | mclose : Tok
  | key : String → Tok
deriving DecidableEq, Repr

mutual
/-- Modelled from the spec: `yaml.dump` as token emission.  Scalars
emit one token, lists and dicts emit bracketed token runs; `Enum`
instances and opaque runtime objects are not representable and raise
(`ruamel` RepresenterError), modelled as `Except.error`. -/
def serV : Val → Except Unit (List Tok)
  | .vnone => .ok [.tnull]
  | .bool b => .ok [.tbool b]
  | .int n => .ok [.tint n]
  | .str s => .ok [.tstr s]
  | .list xs =>
    match serL xs with
    | .ok ts => .ok (.lopen :: (ts ++ [.lclose]))
    | .error e => .error e
  | .dict kvs =>
    match serD kvs with
    | .ok ts => .ok (.mopen :: (ts ++ [.mclose]))
    | .error e => .error e
  | .enumv _ => .error ()
  | .obj _ _ => .error ()

/-- Serialize the elements of a list value in order. -/
def serL : List Val → Except Unit (List Tok)
  | [] => .ok []
  | v :: vs =>
    match serV v with
    | .ok a =>
      match serL vs with
      | .ok b => .ok (a ++ b)
      | .error e => .error e
    | .error e => .error e

/-- Serialize the fields of a dict value in order, each as a `key`
token followed by the value's tokens. -/
def serD : List (String × Val) → Except Unit (List Tok)
  | [] => .ok []
  | (k, v) :: kvs =>
    match serV v with
    | .ok a =>
      match serD kvs with
      | .ok b => .ok (.key k :: (a ++ b))
      | .error e => .error e
    | .error e => .error e
end

mutual
/-- Modelled from the spec: `yaml.load` as a fuel-indexed recursive
descent over the token stream, returning the parsed value and the
remaining tokens, or `none` on malformed input. -/
def parseV : Nat → List Tok → Option (Val × List Tok)
  | 0, _ => none
  | _ + 1, .tnull :: r => some (.vnone, r)
  | _ + 1, .tbool b :: r => some (.bool b, r)
  | _ + 1, .tint n :: r => some (.int n, r)
  | _ + 1, .tstr s :: r => some (.str s, r)
  | f + 1, .lopen :: r =>
    match parseL f r with
    | some (xs, r') => some (.list xs, r')
    | none => none
  | f + 1, .mopen :: r =>
    match parseD f r with
    | some (kvs, r') => some (.dict kvs, r')
    | none => none
  | _ + 1, _ => none

/-- Parse list elements until the closing bracket. -/
def parseL : Nat → List Tok → Option (List Val × List Tok)
  | 0, _ => none
  | f + 1, toks =>
    match parseV f toks with
    | some (v, r) =>
      match parseL f r with
      | some (vs, r') => some (v :: vs, r')
      | none => none
    | none =>
      match toks with
      | .lclose :: r => some ([], r)
      | _ => none

/-- Parse dict fields until the closing bracket. -/
def parseD : Nat → List Tok → Option (List (String × Val) × List Tok)
  | 0, _ => none
  | f + 1, .key k :: toks =>
    match parseV f toks with
    | some (v, r) =>
      match parseD f r with
      | some (kvs, r') => some ((k, v) :: kvs, r')
      | none => none
    | none => none
  | _ + 1, .mclose :: r => some ([], r)
  | _ + 1, _ => none
end

/-- Modelled from the spec: whole-text parse — one value consuming the
entire token stream, with fuel ample for any stream of that length. -/
def yparse (toks : List Tok) : Except Unit Val :=
  match parseV (toks.length + 1) toks with
  | some (v, []) => .ok v
  | _ => .error ()

/-- Python truthiness of a value, for `yaml.load(content) or []`.
`Enum` members and arbitrary objects are truthy by default. -/
def isFalsy : Val → Bool
  | .vnone => true
  | .bool b => !b
  | .int n => n = 0
  | .str s => s = ""
  | .list xs => xs.isEmpty
  | .dict kvs => kvs.isEmpty
  | .enumv _ => false
  | .obj _ _ => false

/-- The filesystem slice the store touches: the contents of
`scenes.yaml` (`none` = file absent) and of the temporary file the
atomic writer creates (`none` = no temp file on disk). -/
structure FS where
  scenes : Option (List Tok)
  tmp : Option (List Tok)
deriving DecidableEq, Repr

/-- The steps of `_write_scenes_file_sync` at which an injected I/O
failure (`OSError`) can strike: `yaml.dump`, `tmp.flush`,
`os.fsync`, `tmp.close`, `os.replace`. -/
inductive WStep where
  | dump | flush | fsync | close | replace
deriving DecidableEq, Repr

/-- The exceptions the executor-side code can raise. -/
inductive Err where
  | ioError : WStep → Err
  | representerError : Err
  | typeError : Err
deriving DecidableEq, Repr

/-- Python `str(err)` for the modelled exceptions. -/
def errStr : Err → String
  | .ioError .dump => "[Errno 5] I/O error during dump"
  | .ioError .flush => "[Errno 5] I/O error during flush"
  | .ioError .fsync => "[Errno 5] I/O error during fsync"
  | .ioError .close => "[Errno 5] I/O error during close"
  | .ioError .replace => "[Errno 5] I/O error during replace"
  | .representerError => "cannot represent an object"
  | .typeError => "cannot convert entities value to dict"

/-- The `finally:` block of `_write_scenes_file_sync`:
`os.unlink(tmp.name)` with any `OSError` (including the temp file
already having been renamed away) swallowed. -/
def unlinkTmp (fs : FS) (e : Option Err) : FS × Option Err :=
  ({ fs with tmp := none }, e)

/-- `_load_scenes_file_sync`: read and parse `scenes.yaml`; a missing
file yields `[]`; any other exception (including a parse failure) is
caught, logged, and yields `[]`; a parsed-but-falsy payload also yields
`[]` (`yaml.load(content) or []`). -/
def load_scenes_file_sync (fs : FS) : Val :=
  match fs.scenes with
  | none => .list []
  | some toks =>
    match yparse toks with
    | .error _ => .list []
    | .ok v => if isFalsy v then .list [] else v

/-- `load_scenes_file` (the async variant): identical logic over the
same file. -/
def load_scenes_file (fs : FS) : Val :=
  match fs.scenes with
  | none => .list []
  | some toks =>
    match yparse toks with
    | .error _ => .list []
    | .ok v => if isFalsy v then .list [] else v

/-- The scan of `get_scene_entities`: skip entries that are not dicts,
return `scene.get("entities", {})` of the first dict whose `id` equals
the requested scene id, else `None`. -/
def findEntities : List Val → String → Option Val
  | [], _ => none
  | .dict d :: rest, sid =>
    if valEqStr (dgetD d "id" .vnone) sid then
      some (dgetD d "entities" (.dict []))
    else findEntities rest sid
  | _ :: rest, sid => findEntities rest sid

/-- `get_scene_entities`: load the file, require a list, scan for the
scene id; `None` when the data is not a list or no scene matches. -/
def get_scene_entities (fs : FS) (scene_id : String) : Option Val :=
  match load_scenes_file fs with
  | .list scenes => findEntities scenes scene_id
  | _ => none

/-- `_write_scenes_file_sync`: create a temp file in the target's
directory, dump the document into it, flush, fsync, close, and
atomically rename it onto `scenes.yaml`; the `finally:` block removes
the temp file (a no-op error is swallowed once it has been renamed).
`failAt` injects an I/O failure at the given step; an unrepresentable
value makes the dump itself raise. -/
def write_scenes_file_sync (fs : FS) (doc : Val) (failAt : Option WStep) :
    FS × Option Err :=
  let fs1 : FS := { fs with tmp := some [] }
  if failAt = some WStep.dump then unlinkTmp fs1 (some (.ioError .dump))
  else
    match serV doc with
    | .error _ => unlinkTmp fs1 (some .representerError)
    | .ok toks =>
      let fs2 : FS := { fs1 with tmp := some toks }
      if failAt = some WStep.flush then unlinkTmp fs2 (some (.ioError .flush))
      else if failAt = some WStep.fsync then unlinkTmp fs2 (some (.ioError .fsync))
      else if failAt = some WStep.close then unlinkTmp fs2 (some (.ioError .close))
      else if failAt = some WStep.replace then unlinkTmp fs2 (some (.ioError .replace))
      else unlinkTmp { fs2 with scenes := some toks, tmp := none } none

/-- `entities.get(ent_id, {})` coerced as the merge loop does: a value
that is not a dict is replaced by `{}`. -/
def asEntryDict : Option Val → Dict
  | some (.dict d) => d
  | _ => []

/-- The merge of one entity entry (`scene_utils.py` lines 168–186):
copy the existing entry; if the captured data carries an `attributes`
or a `state` key, overwrite those fields from it, otherwise store the
whole captured mapping under `attributes`; finally guarantee an
`attributes` key. -/
def mergeEntry (existing update_data : Dict) : Dict :=
  let merged :=
    if hasKey update_data "attributes" || hasKey update_data "state" then
      let m1 :=
        if hasKey update_data "attributes" then
          dset existing "attributes" (dgetD update_data "attributes" .vnone)
        else existing
      if hasKey update_data "state" then
        dset m1 "state" (dgetD update_data "state" .vnone)
      else m1
    else
      dset existing "attributes" (.dict update_data)
  if hasKey merged "attributes" then merged
  else dset merged "attributes" (.dict [])

/-- One iteration of the merge loop of `_update_scenes_file_sync`:
look the entity id up in the captured snapshot (`continue` when absent)
and store the merged entry back into the entities dict. -/
def mergeStep (snap : List (String × Dict)) (acc : Dict) (ent_id : String) : Dict :=
  match alookup snap ent_id with
  | none => acc
  | some update_data =>
    dset acc ent_id (.dict (mergeEntry (asEntryDict (dget acc ent_id)) update_data))

/-- The merge loop of `_update_scenes_file_sync`: iterate over the keys
the entities dict had on entry (`for ent_id in list(entities)`), and
for each key with captured data, merge and store back. -/
def mergeEntities (ents : Dict) (snap : List (String × Dict)) : Dict :=
  (ents.map Prod.fst).foldl (mergeStep snap) ents

/-- The record search of `_update_scenes_file_sync`: first index whose
entry is a dict with a matching `id` (non-dict entries are skipped with
a diagnostic), together with that dict. -/
def findScene : List Val → String → Nat → Option (Nat × Dict)
  | [], _, _ => none
  | .dict d :: rest, sid, i =>
    if valEqStr (dgetD d "id" .vnone) sid then some (i, d)
    else findScene rest sid (i + 1)
  | _ :: rest, sid, i => findScene rest sid (i + 1)

/-- `_update_scenes_file_sync`: under the advisory lock, load the file;
reject non-list data; find the scene by id (not-found returns without
writing); rebuild its `entities` dict via the merge loop; store the
updated record back at its index and write the whole document
atomically.  Exceptions (a non-dict `entities` value handed to
`dict()`, or any write failure) propagate to the caller as
`Except.error`. -/
def update_scenes_file_sync (fs : FS) (scene_id : String)
    (state_attributes : List (String × Dict)) (failAt : Option WStep) :
    FS × Except Err (Bool × String) :=
  match load_scenes_file_sync fs with
  | .list scenes =>
    match findScene scenes scene_id 0 with
    | none => (fs, .ok (false, "Scene " ++ scene_id ++ " not found"))
    | some (index, scene) =>
      match dgetD scene "entities" (.dict []) with
      | .dict entities =>
        let entities' := mergeEntities entities state_attributes
        let scene' := dset scene "entities" (.dict entities')
        let scenes' := scenes.set index (.dict scene')
        match write_scenes_file_sync fs (.list scenes') failAt with
        | (fs', none) => (fs', .ok (true, "Scene " ++ scene_id ++ " updated"))
        | (fs', some e) => (fs', .error e)
      | _ => (fs, .error .typeError)
  | _ => (fs, .ok (false, "Invalid scenes data; expected a list of scenes"))

/-- A captured Home Assistant entity state: its id, its primary state
value, and its attributes dict. -/
structure HAState where
  entity_id : String
  state : Val
  attributes : Dict

/-- The fixed attribute exclusion list `SCENE_ATTRIBUTE_EXCLUDE`. -/
def SCENE_ATTRIBUTE_EXCLUDE : List String := ["device_id", "area_id", "zone_id"]

/-- The attribute comprehension of `update_scene_entities`:
`{k: safe_item(v) for k, v in state.attributes.items()
  if v is not None and k not in SCENE_ATTRIBUTE_EXCLUDE}`. -/
def captureAttrs (attrs : Dict) : Dict :=
  (attrs.filter
      (fun kv => !isVNone kv.2 && !SCENE_ATTRIBUTE_EXCLUDE.contains kv.1)).map
    (fun kv => (kv.1, safe_item kv.2))

/-- The snapshot entry built for one state:
`{"state": str(state.state), "attributes": attributes}`. -/
def captureState (st : HAState) : Dict :=
  [("state", .str (pyStr st.state)), ("attributes", .dict (captureAttrs st.attributes))]

/-- The snapshot loop of `update_scene_entities`: one entry per state,
keyed by `entity_id`, with Python dict-assignment semantics. -/
def snapshotOf (states : List HAState) : List (String × Dict) :=
  states.foldl (fun m st => aset m st.entity_id (captureState st)) []

/-- The structured outcome `{"success": ..., "message": ...}`. -/
structure Outcome where
  success : Bool
  message : String
deriving DecidableEq, Repr

/-- `update_scene_entities`: capture the snapshot of all states, run
the synchronous update on the executor, and wrap the result; any
exception from the executor job is caught and converted into a failure
outcome carrying `str(err)`. -/
def update_scene_entities (fs : FS) (scene_id : String)
    (states : List HAState) (failAt : Option WStep) : FS × Outcome :=
  let state_attributes := snapshotOf states
  match update_scenes_file_sync fs scene_id state_attributes failAt with
  | (fs', .ok (success, message)) => (fs', ⟨success, message⟩)
  | (fs', .error e) => (fs', ⟨false, errStr e⟩)

/-! ## Parser/serializer inversion -/

mutual
/-- Fuel sufficient for `parseV` to parse a serialized value. -/
def needV : Val → Nat
  | .list xs => 1 + needL xs
  | .dict kvs => 1 + needD kvs
  | _ => 1

/-- Fuel sufficient for `parseL` to parse serialized list elements. -/
def needL : List Val → Nat
  | [] => 1
  | v :: vs => 1 + max (needV v) (needL vs)

/-- Fuel sufficient for `parseD` to parse serialized dict fields. -/
def needD : List (String × Val) → Nat
  | [] => 1
  | (_, v) :: kvs => 1 + max (needV v) (needD kvs)
end

theorem parseV_lclose (f : Nat) (r : List Tok) :
    parseV f (Tok.lclose :: r) = none := by
  cases f <;> simp [parseV]

theorem serV_ok_length {v : Val} {ts : List Tok} (hs : serV v = .ok ts) :
    1 ≤ ts.length := by
  cases v <;> simp [serV] at hs
  case vnone => simp [← hs]
  case str => simp [← hs]
  case int => simp [← hs]
  case bool => simp [← hs]
  case list xs =>
    cases hL : serL xs <;> simp [hL] at hs
    simp [← hs]
  case dict kvs =>
    cases hD : serD kvs <;> simp [hD] at hs
    simp [← hs]

mutual
/-- Parsing the serialization of a value (with any continuation and
enough fuel) returns that value and the continuation. -/
theorem parseV_serV : ∀ (v : Val) (ts rest : List Tok) (f : Nat),
    serV v = .ok ts → needV v ≤ f → parseV f (ts ++ rest) = some (v, rest)
  | .vnone, ts, rest, f, hs, hf => by
    simp [serV] at hs
    subst hs
    cases f with
    | zero => simp [needV] at hf
    | succ f' => simp [parseV]
  | .str s, ts, rest, f, hs, hf => by
    simp [serV] at hs
    subst hs
    cases f with
    | zero => simp [needV] at hf
    | succ f' => simp [parseV]
  | .int n, ts, rest, f, hs, hf => by
    simp [serV] at hs
    subst hs
    cases f with
    | zero => simp [needV] at hf
    | succ f' => simp [parseV]
  | .bool b, ts, rest, f, hs, hf => by
    simp [serV] at hs
    subst hs
    cases f with
    | zero => simp [needV] at hf
    | succ f' => simp [parseV]
  | .list xs, ts, rest, f, hs, hf => by
    simp [serV] at hs
    cases hL : serL xs with
    | error e => simp [hL] at hs
    | ok tsl =>
      simp [hL] at hs
      subst hs
      cases f with
      | zero => simp [needV] at hf
      | succ f' =>
        have hfl : needL xs ≤ f' := by simp [needV] at hf; omega
        have hrec := parseL_serL xs tsl rest f' hL hfl
        simp [parseV, List.append_assoc, hrec]
  | .dict kvs, ts, rest, f, hs, hf => by
    simp [serV] at hs
    cases hD : serD kvs with
    | error e => simp [hD] at hs
    | ok tsd =>
      simp [hD] at hs
      subst hs
      cases f with
      | zero => simp [needV] at hf
      | succ f' =>
        have hfd : needD kvs ≤ f' := by simp [needV] at hf; omega
        have hrec := parseD_serD kvs tsd rest f' hD hfd
        simp [parseV, List.append_assoc, hrec]
  | .enumv v', ts, rest, f, hs, hf => by simp [serV] at hs
  | .obj i r, ts, rest, f, hs, hf => by simp [serV] at hs

/-- Parsing the serialization of list elements followed by the closing
bracket returns those elements. -/
theorem parseL_serL : ∀ (vs : List Val) (ts rest : List Tok) (f : Nat),
    serL vs = .ok ts → needL vs ≤ f →
    parseL f (ts ++ Tok.lclose :: rest) = some (vs, rest)
  | [], ts, rest, f, hs, hf => by
    simp [serL] at hs
    subst hs
    cases f with
    | zero => simp [needL] at hf
    | succ f' => simp [parseL, parseV_lclose]
  | v :: vs', ts, rest, f, hs, hf => by
    simp [serL] at hs
    cases hv : serV v with
    | error e => simp [hv] at hs
    | ok tv =>
      cases hl : serL vs' with
      | error e => simp [hv, hl] at hs
      | ok tl =>
        simp [hv, hl] at hs
        subst hs
        cases f with
        | zero => simp [needL] at hf
        | succ f' =>
          have hfv : needV v ≤ f' := by
            simp [needL] at hf
            have := Nat.le_max_left (needV v) (needL vs')
            omega
          have hfl : needL vs' ≤ f' := by
            simp [needL] at hf
            have := Nat.le_max_right (needV v) (needL vs')
            omega
          have h1 := parseV_serV v tv (tl ++ Tok.lclose :: rest) f' hv hfv
          have h2 := parseL_serL vs' tl rest f' hl hfl
          simp [parseL, List.append_assoc, h1, h2]

/-- Parsing the serialization of dict fields followed by the closing
bracket returns those fields. -/
theorem parseD_serD : ∀ (kvs : List (String × Val)) (ts rest : List Tok) (f : Nat),
    serD kvs = .ok ts → needD kvs ≤ f →
    parseD f (ts ++ Tok.mclose :: rest) = some (kvs, rest)
  | [], ts, rest, f, hs, hf => by
    simp [serD] at hs
    subst hs
    cases f with
    | zero => simp [needD] at hf
    | succ f' => simp [parseD]
  | (k, v) :: kvs', ts, rest, f, hs, hf => by
    simp [serD] at hs
    cases hv : serV v with
    | error e => simp [hv] at hs
    | ok tv =>
      cases hl : serD kvs' with
      | error e => simp [hv, hl] at hs
      | ok tl =>
        simp [hv, hl] at hs
        subst hs
        cases f with
        | zero => simp [needD] at hf
        | succ f' =>
          have hfv : needV v ≤ f' := by
            simp [needD] at hf
            have := Nat.le_max_left (needV v) (needD kvs')
            omega
          have hfl : needD kvs' ≤ f' := by
            simp [needD] at hf
            have := Nat.le_max_right (needV v) (needD kvs')
            omega
          have h1 := parseV_serV v tv (tl ++ Tok.mclose :: rest) f' hv hfv
          have h2 := parseD_serD kvs' tl rest f' hl hfl
          simp [parseD, List.append_assoc, h1, h2]
end

mutual
/-- The fuel needed for a serialized value is at most its token count. -/
theorem needV_le : ∀ (v : Val) (ts : List Tok), serV v = .ok ts → needV v ≤ ts.length
  | .vnone, ts, hs => by simp [serV] at hs; subst hs; simp [needV]
  | .str s, ts, hs => by simp [serV] at hs; subst hs; simp [needV]
  | .int n, ts, hs => by simp [serV] at hs; subst hs; simp [needV]
  | .bool b, ts, hs => by simp [serV] at hs; subst hs; simp [needV]
  | .list xs, ts, hs => by
    simp [serV] at hs
    cases hL : serL xs with
    | error e => simp [hL] at hs
    | ok tsl =>
      simp [hL] at hs
      subst hs
      have := needL_le xs tsl hL
      simp [needV]
      omega
  | .dict kvs, ts, hs => by
    simp [serV] at hs
    cases hD : serD kvs with
    | error e => simp [hD] at hs
    | ok tsd =>
      simp [hD] at hs
      subst hs
      have := needD_le kvs tsd hD
      simp [needV]
      omega
  | .enumv v', ts, hs => by simp [serV] at hs
  | .obj i r, ts, hs => by simp [serV] at hs

/-- The fuel needed for serialized list elements is at most their token
count plus one. -/
theorem needL_le : ∀ (vs : List Val) (ts : List Tok), serL vs = .ok ts →
    needL vs ≤ ts.length + 1
  | [], ts, hs => by simp [serL] at hs; subst hs; simp [needL]
  | v :: vs', ts, hs => by
    simp [serL] at hs
    cases hv : serV v with
    | error e => simp [hv] at hs
    | ok tv =>
      cases hl : serL vs' with
      | error e => simp [hv, hl] at hs
      | ok tl =>
        simp [hv, hl] at hs
        subst hs
        have h1 := needV_le v tv hv
        have h2 := needL_le vs' tl hl
        have h3 := serV_ok_length hv
        have hmax : max (needV v) (needL vs') ≤ tv.length + tl.length :=
          max_le (by omega) (by omega)
        simp [needL]
        omega

/-- The fuel needed for serialized dict fields is at most their token
count plus one. -/
theorem needD_le : ∀ (kvs : List (String × Val)) (ts : List Tok),
    serD kvs = .ok ts → needD kvs ≤ ts.length + 1
  | [], ts, hs => by simp [serD] at hs; subst hs; simp [needD]
  | (k, v) :: kvs', ts, hs => by
    simp [serD] at hs
    cases hv : serV v with
    | error e => simp [hv] at hs
    | ok tv =>
      cases hl : serD kvs' with
      | error e => simp [hv, hl] at hs
      | ok tl =>
        simp [hv, hl] at hs
        subst hs
        have h1 := needV_le v tv hv
        have h2 := needD_le kvs' tl hl
        have hmax : max (needV v) (needD kvs') ≤ tv.length + tl.length + 1 :=
          max_le (by omega) (by omega)
        simp [needD]
        omega
end

/-- Whole-text inversion: parsing the full serialization of a value
recovers the value exactly. -/
theorem yparse_serV {v : Val} {ts : List Tok} (hs : serV v = .ok ts) :
    yparse ts = .ok v := by
  have hneed : needV v ≤ ts.length + 1 := le_trans (needV_le v ts hs) (by omega)
  have h := parseV_serV v ts [] (ts.length + 1) hs hneed
  simp at h
  simp [yparse, h]

/-! ## Association-list lemmas -/

theorem alookup_map_set {α : Type} (d : List (String × α)) (k : String) (v : α)
    (h : (alookup d k).isSome = true) :
    alookup (d.map fun kv => if kv.1 = k then (k, v) else kv) k = some v := by
  induction d with
  | nil => simp [alookup] at h
  | cons kv rest ih =>
    obtain ⟨k1, v1⟩ := kv
    simp only [List.map_cons]
    by_cases hk : k1 = k
    · subst hk
      have hhead : (if ((k1, v1) : String × α).1 = k1 then (k1, v) else (k1, v1)) = (k1, v) := by
        simp
      rw [hhead]
      simp [alookup]
    · have hhead : (if ((k1, v1) : String × α).1 = k then (k, v) else (k1, v1)) = (k1, v1) := by
        simp [hk]
      rw [hhead]
      simp [alookup, hk] at h ⊢
      exact ih h

theorem alookup_append_last {α : Type} (d : List (String × α)) (k : String) (v : α)
    (h : alookup d k = none) :
    alookup (d ++ [(k, v)]) k = some v := by
  induction d with
  | nil => simp [alookup]
  | cons kv rest ih =>
    obtain ⟨k1, v1⟩ := kv
    by_cases hk : k1 = k
    · subst hk; simp [alookup] at h
    · simp [alookup, hk] at h ⊢
      exact ih h

theorem alookup_aset_self {α : Type} (d : List (String × α)) (k : String) (v : α) :
    alookup (aset d k v) k = some v := by
  unfold aset
  by_cases h : (alookup d k).isSome
  · simp only [h, if_true]
    exact alookup_map_set d k v h
  · simp only [h, Bool.false_eq_true, if_false]
    exact alookup_append_last d k v (Option.not_isSome_iff_eq_none.mp h)

theorem alookup_map_set_ne {α : Type} (d : List (String × α)) (k k' : String) (v : α)
    (h : k ≠ k') :
    alookup (d.map fun kv => if kv.1 = k then (k, v) else kv) k' = alookup d k' := by
  induction d with
  | nil => simp [alookup]
  | cons kv rest ih =>
    obtain ⟨k1, v1⟩ := kv
    simp only [List.map_cons]
    by_cases hk : k1 = k
    · subst hk
      have hhead : (if ((k1, v1) : String × α).1 = k1 then (k1, v) else (k1, v1)) = (k1, v) := by
        simp
      rw [hhead]
      simp [alookup, h, ih]
    · have hhead : (if ((k1, v1) : String × α).1 = k then (k, v) else (k1, v1)) = (k1, v1) := by
        simp [hk]
      rw [hhead]
      by_cases hk' : k1 = k'
      · simp [alookup, hk']
      · simp [alookup, hk', ih]

theorem alookup_append_last_ne {α : Type} (d : List (String × α)) (k k' : String)
    (v : α) (h : k ≠ k') :
    alookup (d ++ [(k, v)]) k' = alookup d k' := by
  induction d with
  | nil => simp [alookup, h]
  | cons kv rest ih =>
    obtain ⟨k1, v1⟩ := kv
    by_cases hk' : k1 = k'
    · simp [alookup, hk']
    · simp [alookup, hk', ih]

theorem alookup_aset_ne {α : Type} (d : List (String × α)) (k k' : String) (v : α)
    (h : k ≠ k') : alookup (aset d k v) k' = alookup d k' := by
  unfold aset
  by_cases hs : (alookup d k).isSome
  · simp only [hs, if_true]
    exact alookup_map_set_ne d k k' v h
  · simp only [hs, Bool.false_eq_true, if_false]
    exact alookup_append_last_ne d k k' v h

theorem keys_aset {α : Type} (d : List (String × α)) (k : String) (v : α)
    (h : (alookup d k).isSome = true) :
    (aset d k v).map Prod.fst = d.map Prod.fst := by
  unfold aset
  simp only [h, if_true]
  rw [List.map_map]
  apply List.map_congr_left
  intro kv _
  by_cases hk : kv.1 = k
  · simp [hk]
  · simp [hk]

theorem alookup_isSome_iff {α : Type} (d : List (String × α)) (k : String) :
    (alookup d k).isSome = true ↔ k ∈ d.map Prod.fst := by
  induction d with
  | nil => simp [alookup]
  | cons kv rest ih =>
    obtain ⟨k1, v1⟩ := kv
    simp only [List.map_cons, List.mem_cons]
    by_cases hk : k1 = k
    · subst hk; simp [alookup]
    · have hk' : ¬k = k1 := fun he => hk he.symm
      simp [alookup, hk, hk', ih]

theorem dget_dset_self (d : Dict) (k : String) (v : Val) :
    dget (dset d k v) k = some v := alookup_aset_self d k v

theorem dget_dset_ne (d : Dict) (k k' : String) (v : Val) (h : k ≠ k') :
    dget (dset d k v) k' = dget d k' := alookup_aset_ne d k k' v h

theorem hasKey_dset_self (d : Dict) (k : String) (v : Val) :
    hasKey (dset d k v) k = true := by
  simp [hasKey, dget_dset_self]

theorem keys_dset (d : Dict) (k : String) (v : Val) (h : hasKey d k = true) :
    (dset d k v).map Prod.fst = d.map Prod.fst := keys_aset d k v h

/-! ## Merge-loop lemmas -/

theorem dget_foldl_mergeStep_notmem (snap : List (String × Dict)) (b : String) :
    ∀ (ids : List String) (acc : Dict), b ∉ ids →
      dget (ids.foldl (mergeStep snap) acc) b = dget acc b := by
  intro ids
  induction ids with
  | nil => intro acc _; rfl
  | cons i rest ih =>
    intro acc hb
    simp only [List.mem_cons, not_or] at hb
    obtain ⟨h1, h2⟩ := hb
    rw [List.foldl_cons, ih _ h2]
    unfold mergeStep
    cases alookup snap i with
    | none => rfl
    | some ud => exact dget_dset_ne _ _ _ _ (fun he => h1 he.symm)

theorem dget_foldl_mergeStep_nosnap (snap : List (String × Dict)) (b : String)
    (hb : alookup snap b = none) :
    ∀ (ids : List String) (acc : Dict),
      dget (ids.foldl (mergeStep snap) acc) b = dget acc b := by
  intro ids
  induction ids with
  | nil => intro acc; rfl
  | cons i rest ih =>
    intro acc
    rw [List.foldl_cons, ih]
    by_cases hib : i = b
    · subst hib
      unfold mergeStep
      rw [hb]
    · unfold mergeStep
      cases alookup snap i with
      | none => rfl
      | some ud => exact dget_dset_ne _ _ _ _ hib

theorem keys_foldl_mergeStep (snap : List (String × Dict)) :
    ∀ (ids : List String) (acc : Dict), (∀ i ∈ ids, hasKey acc i = true) →
      (ids.foldl (mergeStep snap) acc).map Prod.fst = acc.map Prod.fst := by
  intro ids
  induction ids with
  | nil => intro acc _; rfl
  | cons i rest ih =>
    intro acc hmem
    rw [List.foldl_cons]
    have hi : hasKey acc i = true := hmem i (by simp)
    have hkeys : (mergeStep snap acc i).map Prod.fst = acc.map Prod.fst := by
      unfold mergeStep
      cases alookup snap i with
      | none => rfl
      | some ud => exact keys_dset _ _ _ hi
    rw [ih _ ?_, hkeys]
    intro j hj
    have hj' := hmem j (by simp [hj])
    rw [hasKey, dget] at hj' ⊢
    rw [alookup_isSome_iff] at hj' ⊢
    rwa [hkeys]

/-- The merge loop never changes the key list of the entities dict. -/
theorem mergeEntities_keys (ents : Dict) (snap : List (String × Dict)) :
    (mergeEntities ents snap).map Prod.fst = ents.map Prod.fst := by
  unfold mergeEntities
  apply keys_foldl_mergeStep
  intro i hi
  rw [hasKey, dget, alookup_isSome_iff]
  exact hi

/-- An entity with no snapshot entry keeps its stored entry verbatim. -/
theorem mergeEntities_dget_nosnap (ents : Dict) (snap : List (String × Dict))
    (b : String) (hb : alookup snap b = none) :
    dget (mergeEntities ents snap) b = dget ents b := by
  unfold mergeEntities
  exact dget_foldl_mergeStep_nosnap snap b hb _ ents

/-- An entity present in the record whose id has a snapshot entry ends
up with exactly the merged entry. -/
theorem mergeEntities_dget_found (ents : Dict) (snap : List (String × Dict))
    (A : String) (ud : Dict) (vA : Val)
    (hnd : (ents.map Prod.fst).Nodup)
    (hsnap : alookup snap A = some ud)
    (hA : dget ents A = some vA) :
    dget (mergeEntities ents snap) A =
      some (.dict (mergeEntry (asEntryDict (some vA)) ud)) := by
  unfold mergeEntities
  have hmem : A ∈ ents.map Prod.fst := by
    rw [← alookup_isSome_iff]
    rw [dget] at hA
    simp [hA]
  obtain ⟨l1, l2, hsplit⟩ := List.append_of_mem hmem
  have hnd' := hnd
  rw [hsplit, List.nodup_append] at hnd'
  have hA1 : A ∉ l1 := by
    intro hc
    exact (hnd'.2.2 hc) (by simp)
  have hA2 : A ∉ l2 := by
    have := hnd'.2.1
    simp only [List.nodup_cons] at this
    exact this.1
  rw [hsplit, List.foldl_append, List.foldl_cons]
  have h1 : dget (l1.foldl (mergeStep snap) ents) A = some vA := by
    rw [dget_foldl_mergeStep_notmem snap A l1 ents hA1]
    exact hA
  have hstep : mergeStep snap (l1.foldl (mergeStep snap) ents) A =
      dset (l1.foldl (mergeStep snap) ents) A
        (.dict (mergeEntry (asEntryDict (some vA)) ud)) := by
    simp only [mergeStep, hsnap, h1]
  rw [hstep, dget_foldl_mergeStep_notmem snap A l2 _ hA2, dget_dset_self]

/-! ## Atomic-writer and loader lemmas -/

theorem write_scenes_file_sync_ok (fs : FS) (doc : Val) (ts : List Tok)
    (h : serV doc = .ok ts) :
    write_scenes_file_sync fs doc none = (⟨some ts, none⟩, none) := by
  simp [write_scenes_file_sync, h, unlinkTmp]

theorem load_scenes_file_sync_write (l : List Val) (ts : List Tok)
    (h : serV (.list l) = .ok ts) :
    load_scenes_file_sync ⟨some ts, none⟩ = .list l := by
  have hp := yparse_serV h
  cases l with
  | nil => simp [load_scenes_file_sync, hp, isFalsy]
  | cons v l' => simp [load_scenes_file_sync, hp, isFalsy]

/-- The not-found message never coincides with the rendering of any
executor-side exception. -/
theorem notfound_msg_ne (sid : String) (e : Err) :
    "Scene " ++ sid ++ " not found" ≠ errStr e := by
  intro h
  have hd : ("Scene " ++ sid ++ " not found").data.head? = (errStr e).data.head? := by
    rw [h]
  have hS : ("Scene " ++ sid ++ " not found").data.head? = some 'S' := rfl
  rw [hS] at hd
  cases e with
  | ioError w => cases w <;> exact absurd hd (by decide)
  | representerError => exact absurd hd (by decide)
  | typeError => exact absurd hd (by decide)

/-- A scan over records none of which carries the requested id comes
back empty-handed. -/
theorem findEntities_no_match (scenes : List Val) (sid : String)
    (h : ∀ d : Dict, Val.dict d ∈ scenes → valEqStr (dgetD d "id" .vnone) sid = false) :
    findEntities scenes sid = none := by
  induction scenes with
  | nil => rfl
  | cons v rest ih =>
    have ih' := ih (fun d hm => h d (List.mem_cons_of_mem _ hm))
    cases v with
    | dict d =>
      have hd := h d (List.mem_cons_self _ _)
      simp [findEntities, hd, ih']
    | vnone => simp [findEntities, ih']
    | str s => simp [findEntities, ih']
    | int n => simp [findEntities, ih']
    | bool b => simp [findEntities, ih']
    | list xs => simp [findEntities, ih']
    | enumv v' => simp [findEntities, ih']
    | obj i r => simp [findEntities, ih']

/-- A found record sits at its reported index. -/
theorem findScene_get (scenes : List Val) (sid : String) :
    ∀ (i index : Nat) (scene : Dict), findScene scenes sid i = some (index, scene) →
      i ≤ index ∧ scenes.get? (index - i) = some (.dict scene) := by
  induction scenes with
  | nil => intro i index scene h; simp [findScene] at h
  | cons v rest ih =>
    intro i index scene h
    have hskip : findScene rest sid (i + 1) = some (index, scene) →
        i ≤ index ∧ (v :: rest).get? (index - i) = some (.dict scene) := by
      intro h'
      obtain ⟨h1, h2⟩ := ih (i + 1) index scene h'
      refine ⟨by omega, ?_⟩
      have heq : index - i = (index - (i + 1)) + 1 := by omega
      rw [heq]
      simpa using h2
    cases v with
    | dict d =>
      by_cases hv : valEqStr (dgetD d "id" .vnone) sid = true
      · rw [findScene, if_pos hv] at h
        have h1 : index = i ∧ scene = d := by
          have := Option.some.inj h
          exact ⟨congrArg Prod.fst this |>.symm, congrArg Prod.snd this |>.symm⟩
        obtain ⟨hidx, hsc⟩ := h1
        subst hidx
        subst hsc
        simp
      · rw [findScene, if_neg hv] at h
        exact hskip h
    | vnone => simp only [findScene] at h; exact hskip h
    | str s => simp only [findScene] at h; exact hskip h
    | int n => simp only [findScene] at h; exact hskip h
    | bool b => simp only [findScene] at h; exact hskip h
    | list xs => simp only [findScene] at h; exact hskip h
    | enumv v' => simp only [findScene] at h; exact hskip h
    | obj i0 r0 => simp only [findScene] at h; exact hskip h

/-! ## Capture and merge-entry lemmas -/

/-- Re-filtering the captured attributes by the exclusion list changes
nothing: excluded keys were already dropped at capture time. -/
theorem captureAttrs_no_excluded (attrs : Dict) :
    (captureAttrs attrs).filter
        (fun kv => !SCENE_ATTRIBUTE_EXCLUDE.contains kv.1) =
      captureAttrs attrs := by
  rw [List.filter_eq_self]
  intro kv hm
  unfold captureAttrs at hm
  simp only [List.mem_map] at hm
  obtain ⟨kv0, hmem, hkv⟩ := hm
  have hp := List.of_mem_filter hmem
  have hk : kv.1 = kv0.1 := by rw [← hkv]
  rw [hk]
  exact (Bool.and_eq_true .. ▸ hp).2

/-- The merge of a nested `{state, attributes}` snapshot entry is the
existing entry with those two fields overwritten. -/
theorem mergeEntry_state_attrs (existing : Dict) (stv av : Val) :
    mergeEntry existing [("state", stv), ("attributes", av)] =
      dset (dset existing "attributes" av) "state" stv := by
  have h1 : hasKey [("state", stv), ("attributes", av)] "attributes" = true := by
    simp [hasKey, dget, alookup]
  have h2 : hasKey [("state", stv), ("attributes", av)] "state" = true := by
    simp [hasKey, dget, alookup]
  have h3 : dgetD [("state", stv), ("attributes", av)] "attributes" .vnone = av := by
    simp [dgetD, dget, alookup]
  have h4 : dgetD [("state", stv), ("attributes", av)] "state" .vnone = stv := by
    simp [dgetD, dget, alookup]
  have h5 : hasKey (dset (dset existing "attributes" av) "state" stv) "attributes"
      = true := by
    have hne : ("state" : String) ≠ "attributes" := by decide
    simp [hasKey, dget_dset_ne _ _ _ _ hne, dget_dset_self]
  simp [mergeEntry, h1, h2, h3, h4, h5]

/-- Whatever shape the merge takes, the merged entry carries an
`attributes` key. -/
theorem hasKey_mergeEntry_attributes (e u : Dict) :
    hasKey (mergeEntry e u) "attributes" = true := by
  unfold mergeEntry
  set m := if hasKey u "attributes" || hasKey u "state" then
      (if hasKey u "state" then
        dset (if hasKey u "attributes" then
          dset e "attributes" (dgetD u "attributes" .vnone) else e) "state"
          (dgetD u "state" .vnone)
      else if hasKey u "attributes" then
        dset e "attributes" (dgetD u "attributes" .vnone) else e)
    else dset e "attributes" (.dict u) with hm
  by_cases h : hasKey m "attributes"
  · simp [h]
  · simp [h, hasKey_dset_self]

/-- Characterization of the successful path through
`_update_scenes_file_sync`: once the file parses to a list, the record
is found, its `entities` field is a dict, and the write goes through,
the operation is exactly merge followed by write, reporting success. -/
theorem update_sync_write_ok (fs fs' : FS) (scene_id : String)
    (snap : List (String × Dict)) (failAt : Option WStep)
    (scenes : List Val) (index : Nat) (scene entities : Dict)
    (hload : load_scenes_file_sync fs = .list scenes)
    (hfind : findScene scenes scene_id 0 = some (index, scene))
    (hents : dgetD scene "entities" (.dict []) = .dict entities)
    (hw : write_scenes_file_sync fs
        (.list (scenes.set index
          (.dict (dset scene "entities"
            (.dict (mergeEntities entities snap)))))) failAt = (fs', none)) :
    update_scenes_file_sync fs scene_id snap failAt =
      (fs', .ok (true, "Scene " ++ scene_id ++ " updated")) := by
  simp only [update_scenes_file_sync, hload, hfind, hents, hw]

/-- The matching failure path: when the write raises, the exception
propagates out of `_update_scenes_file_sync`. -/
theorem update_sync_write_err (fs fs' : FS) (scene_id : String)
    (snap : List (String × Dict)) (failAt : Option WStep)
    (scenes : List Val) (index : Nat) (scene entities : Dict) (e : Err)
    (hload : load_scenes_file_sync fs = .list scenes)
    (hfind : findScene scenes scene_id 0 = some (index, scene))
    (hents : dgetD scene "entities" (.dict []) = .dict entities)
    (hw : write_scenes_file_sync fs
        (.list (scenes.set index
          (.dict (dset scene "entities"
            (.dict (mergeEntities entities snap)))))) failAt = (fs', some e)) :
    update_scenes_file_sync fs scene_id snap failAt = (fs', .error e) := by
  simp only [update_scenes_file_sync, hload, hfind, hents, hw]

/-! ## Concrete fixtures -/

/-- The entities mapping of the first example record. -/
def exampleEntities1 : Dict :=
  [("light.a", .dict [("state", .str "on")]),
   ("switch.b", .dict [("state", .str "off")])]

/-- The first example record: id, an extra uninterpreted field, and
two declared entities. -/
def exampleScene1 : Dict :=
  [("id", .str "s1"), ("name", .str "front room"),
   ("entities", .dict exampleEntities1)]

/-- The second example record. -/
def exampleScene2 : Dict :=
  [("id", .str "s2"),
   ("entities", .dict [("light.c", .dict [("state", .str "idle")])])]

/-- A concrete two-record document (with an extra uninterpreted field)
used to evaluate the claim theorems on explicit inputs. -/
def exampleDoc : List Val := [.dict exampleScene1, .dict exampleScene2]

/-- A live state for `light.a` used by the capture-and-merge
witnesses: one persistable attribute and one excluded attribute. -/
def exampleStateA : HAState :=
  ⟨"light.a", .str "off", [("brightness", .int 128), ("device_id", .str "d1")]⟩

/-- The serialized form of the example document. -/
def exampleToks : List Tok :=
  match serV (.list exampleDoc) with
  | .ok ts => ts
  | .error _ => []

/-- A store whose `scenes.yaml` holds the example document. -/
def exampleFS : FS := ⟨some exampleToks, none⟩

/-! ## Claim theorems -/

/-- C1: for any document and any failure injected during
serialization, flush, fsync, or close of the temporary file (all
before the rename), `_write_scenes_file_sync` deletes the temporary
file, propagates the error, and leaves the target file's contents
unchanged; moreover, under every failure mode the target path only
ever holds the previous contents or the complete new serialization —
never a zero-length or partial document. -/
theorem write_failure_before_rename (fs : FS) (doc : Val) (failAt : Option WStep)
    (h : failAt = some WStep.dump ∨ failAt = some WStep.flush ∨
      failAt = some WStep.fsync ∨ failAt = some WStep.close ∨
      serV doc = .error ()) :
    ((write_scenes_file_sync fs doc failAt).2.isSome = true ∧
      (write_scenes_file_sync fs doc failAt).1.scenes = fs.scenes ∧
      (write_scenes_file_sync fs doc failAt).1.tmp = none) ∧
    ∀ failAt' : Option WStep,
      (write_scenes_file_sync fs doc failAt').1.scenes = fs.scenes ∨
      ∃ ts, serV doc = .ok ts ∧
        (write_scenes_file_sync fs doc failAt').1.scenes = some ts := by
  constructor
  · rcases h with h | h | h | h | h
    · subst h; cases hs : serV doc <;> simp [write_scenes_file_sync, unlinkTmp, hs]
    · subst h; cases hs : serV doc <;> simp [write_scenes_file_sync, unlinkTmp, hs]
    · subst h; cases hs : serV doc <;> simp [write_scenes_file_sync, unlinkTmp, hs]
    · subst h; cases hs : serV doc <;> simp [write_scenes_file_sync, unlinkTmp, hs]
    · by_cases hd : failAt = some WStep.dump <;>
        simp [write_scenes_file_sync, hd, h, unlinkTmp]
  · intro failAt'
    cases hs : serV doc with
    | error e =>
      left
      by_cases hd : failAt' = some WStep.dump <;>
        simp [write_scenes_file_sync, hd, hs, unlinkTmp]
    | ok ts =>
      cases failAt' with
      | none =>
        right
        exact ⟨ts, rfl, by simp [write_scenes_file_sync, hs, unlinkTmp]⟩
      | some w =>
        left
        cases w <;> simp [write_scenes_file_sync, hs, unlinkTmp]

/-- Witness for C1: a flush failure while rewriting the example file
with the empty document. -/
theorem write_failure_before_rename_witness :
    ((write_scenes_file_sync exampleFS (.list []) (some WStep.flush)).2.isSome = true ∧
      (write_scenes_file_sync exampleFS (.list []) (some WStep.flush)).1.scenes =
        exampleFS.scenes ∧
      (write_scenes_file_sync exampleFS (.list []) (some WStep.flush)).1.tmp = none) ∧
    ∀ failAt' : Option WStep,
      (write_scenes_file_sync exampleFS (.list []) failAt').1.scenes =
        exampleFS.scenes ∨
      ∃ ts, serV (.list []) = .ok ts ∧
        (write_scenes_file_sync exampleFS (.list []) failAt').1.scenes = some ts :=
  write_failure_before_rename exampleFS (.list []) (some WStep.flush)
    (Or.inr (Or.inl rfl))

/-- C3: the merge loop of the update never adds entity identifiers to a
record: the key list of the entities mapping is preserved exactly, so
any identifier absent from the record before the update — whatever the
captured snapshot holds for it — is still absent afterwards. -/
theorem update_no_entity_addition (ents : Dict) (snap : List (String × Dict)) :
    (mergeEntities ents snap).map Prod.fst = ents.map Prod.fst ∧
    ∀ C : String, hasKey ents C = false →
      hasKey (mergeEntities ents snap) C = false := by
  refine ⟨mergeEntities_keys ents snap, ?_⟩
  intro C hC
  cases hm : hasKey (mergeEntities ents snap) C with
  | false => rfl
  | true =>
    exfalso
    rw [hasKey, dget] at hm hC
    have h1 := (alookup_isSome_iff _ C).mp hm
    rw [mergeEntities_keys] at h1
    have h2 := (alookup_isSome_iff ents C).mpr h1
    rw [hC] at h2
    exact Bool.false_ne_true h2

/-- Witness for C3: a snapshot offering an identifier the record does
not declare leaves that identifier absent. -/
theorem update_no_entity_addition_witness :
    hasKey [("light.a", Val.dict [("state", Val.str "on")])] "switch.c" = false ∧
    hasKey (mergeEntities [("light.a", Val.dict [("state", Val.str "on")])]
      [("switch.c", [("state", Val.str "on")])]) "switch.c" = false :=
  ⟨rfl, (update_no_entity_addition [("light.a", Val.dict [("state", Val.str "on")])]
    [("switch.c", [("state", Val.str "on")])]).2 "switch.c" rfl⟩

/-- C4 counterexample: with an unparsable file on disk, the load
operation does not fail with any corrupt-document condition — it
silently yields the empty document — and the update operation then
reports plain scene-not-found, byte-identical to the outcome for a
genuinely absent file, with the original file left in place. -/
theorem corrupt_document_counterexample :
    yparse [Tok.lclose] = .error () ∧
    load_scenes_file_sync ⟨some [Tok.lclose], none⟩ = .list [] ∧
    (update_scenes_file_sync ⟨some [Tok.lclose], none⟩ "s1" [] none).2 =
      .ok (false, "Scene s1 not found") ∧
    (update_scenes_file_sync ⟨some [Tok.lclose], none⟩ "s1" [] none).1 =
      ⟨some [Tok.lclose], none⟩ ∧
    (update_scenes_file_sync ⟨none, none⟩ "s1" [] none).2 =
      .ok (false, "Scene s1 not found") :=
  ⟨rfl, rfl, rfl, rfl, rfl⟩

/-- C4 amended: a file that exists but fails to parse is silently
treated as an empty document by the load operation (no corrupt-document
condition exists in the code); the update operation then returns a
scene-not-found failure outcome, performs no write, and leaves the
original file untouched. -/
theorem corrupt_file_treated_as_empty (fs : FS) (toks : List Tok)
    (scene_id : String) (snap : List (String × Dict)) (failAt : Option WStep)
    (hfile : fs.scenes = some toks)
    (hbad : yparse toks = .error ()) :
    load_scenes_file_sync fs = .list [] ∧
    update_scenes_file_sync fs scene_id snap failAt =
      (fs, .ok (false, "Scene " ++ scene_id ++ " not found")) := by
  have hload : load_scenes_file_sync fs = .list [] := by
    simp [load_scenes_file_sync, hfile, hbad]
  refine ⟨hload, ?_⟩
  simp [update_scenes_file_sync, hload, findScene]

/-- Witness for the amended C4 on a concrete corrupt file. -/
theorem corrupt_file_treated_as_empty_witness :
    load_scenes_file_sync ⟨some [Tok.lclose], none⟩ = .list [] ∧
    update_scenes_file_sync ⟨some [Tok.lclose], none⟩ "s9" [] none =
      (⟨some [Tok.lclose], none⟩, .ok (false, "Scene " ++ "s9" ++ " not found")) :=
  corrupt_file_treated_as_empty ⟨some [Tok.lclose], none⟩ [Tok.lclose] "s9" [] none
    rfl rfl

/-- C5: evaluation at the failing input.  An attribute value whose
conversion fails (`safe_item` catches the exception and returns `None`)
is retained in the captured attributes mapping under its key with value
`None` — serialized as null — rather than omitted; only values that
were already `None` before conversion are filtered out.  The capture
never raises, but the claimed omission of unconvertible values does not
happen: the `if v is not None` filter tests the value before
conversion. -/
theorem unconvertible_attribute_stored_as_null :
    safe_item (.obj 7 true) = .vnone ∧
    captureAttrs [("foo", .obj 7 true)] = [("foo", Val.vnone)] ∧
    captureAttrs [("bar", .vnone)] = [] :=
  ⟨rfl, rfl, rfl⟩

/-- C7: when the loaded document is a well-formed list with no record
matching the requested id, the update returns a not-found outcome whose
message differs from every write-failure message, performs no write,
and returns the store unchanged. -/
theorem update_not_found (fs : FS) (scene_id : String)
    (snap : List (String × Dict)) (failAt : Option WStep) (scenes : List Val)
    (hload : load_scenes_file_sync fs = .list scenes)
    (hfind : findScene scenes scene_id 0 = none) :
    update_scenes_file_sync fs scene_id snap failAt =
      (fs, .ok (false, "Scene " ++ scene_id ++ " not found")) ∧
    ∀ e : Err, "Scene " ++ scene_id ++ " not found" ≠ errStr e := by
  refine ⟨?_, notfound_msg_ne scene_id⟩
  simp [update_scenes_file_sync, hload, hfind]

/-- Witness for C7 on the example document and an id it lacks. -/
theorem update_not_found_witness :
    update_scenes_file_sync exampleFS "zz" [] none =
      (exampleFS, .ok (false, "Scene " ++ "zz" ++ " not found")) ∧
    ∀ e : Err, "Scene " ++ "zz" ++ " not found" ≠ errStr e :=
  update_not_found exampleFS "zz" [] none exampleDoc rfl rfl

/-- C9: `get_scene_entities` returns `None` without raising for a
missing scene id: when the backing file does not exist the load yields
the empty document (not an error), and when the file holds a
well-formed list containing no record with the requested id the scan
comes back empty. -/
theorem get_scene_entities_not_found (fs : FS) (scene_id : String) :
    (fs.scenes = none →
      load_scenes_file fs = .list [] ∧ get_scene_entities fs scene_id = none) ∧
    (∀ scenes : List Val, load_scenes_file fs = .list scenes →
      (∀ d : Dict, Val.dict d ∈ scenes →
        valEqStr (dgetD d "id" .vnone) scene_id = false) →
      get_scene_entities fs scene_id = none) := by
  constructor
  · intro h
    have hl : load_scenes_file fs = .list [] := by simp [load_scenes_file, h]
    exact ⟨hl, by simp [get_scene_entities, hl, findEntities]⟩
  · intro scenes hl hno
    simp [get_scene_entities, hl, findEntities_no_match scenes scene_id hno]

/-- Witness for C9: a missing file and the example file with an
unmatched id. -/
theorem get_scene_entities_not_found_witness :
    (load_scenes_file ⟨none, none⟩ = .list [] ∧
      get_scene_entities ⟨none, none⟩ "zz" = none) ∧
    get_scene_entities exampleFS "zz" = none := by
  refine ⟨(get_scene_entities_not_found ⟨none, none⟩ "zz").1 rfl, ?_⟩
  refine (get_scene_entities_not_found exampleFS "zz").2 exampleDoc rfl ?_
  intro d hd
  simp only [exampleDoc, List.mem_cons, List.not_mem_nil, or_false] at hd
  rcases hd with h | h
  · injection h with h'
    subst h'
    rfl
  · injection h with h'
    subst h'
    rfl

/-- C10: when the captured mapping for an already-declared entity has
neither a `state` nor an `attributes` key, the merge stores the whole
captured mapping as the entry's `attributes` value, preserves every
other key of the existing entry, and — whatever the snapshot shape —
every merged entry ends up containing an `attributes` key. -/
theorem mergeEntry_flat_snapshot (existing update_data : Dict)
    (hs : hasKey update_data "state" = false)
    (ha : hasKey update_data "attributes" = false) :
    mergeEntry existing update_data =
      dset existing "attributes" (.dict update_data) ∧
    dget (mergeEntry existing update_data) "attributes" =
      some (.dict update_data) ∧
    (∀ k, k ≠ "attributes" →
      dget (mergeEntry existing update_data) k = dget existing k) ∧
    ∀ e u : Dict, hasKey (mergeEntry e u) "attributes" = true := by
  have hm : mergeEntry existing update_data =
      dset existing "attributes" (.dict update_data) := by
    simp [mergeEntry, hs, ha, hasKey_dset_self]
  refine ⟨hm, ?_, ?_, fun e u => hasKey_mergeEntry_attributes e u⟩
  · rw [hm]
    exact dget_dset_self existing "attributes" (.dict update_data)
  · intro k hk
    rw [hm]
    exact dget_dset_ne _ _ _ _ (fun he => hk he.symm)

/-- Witness for C10 on a concrete flat snapshot entry. -/
theorem mergeEntry_flat_snapshot_witness :
    mergeEntry [("state", Val.str "on"), ("x", Val.int 3)]
        [("brightness", Val.int 128)] =
      dset [("state", Val.str "on"), ("x", Val.int 3)] "attributes"
        (.dict [("brightness", Val.int 128)]) ∧
    dget (mergeEntry [("state", Val.str "on"), ("x", Val.int 3)]
        [("brightness", Val.int 128)]) "attributes" =
      some (.dict [("brightness", Val.int 128)]) ∧
    (∀ k, k ≠ "attributes" →
      dget (mergeEntry [("state", Val.str "on"), ("x", Val.int 3)]
          [("brightness", Val.int 128)]) k =
        dget [("state", Val.str "on"), ("x", Val.int 3)] k) ∧
    ∀ e u : Dict, hasKey (mergeEntry e u) "attributes" = true :=
  mergeEntry_flat_snapshot [("state", Val.str "on"), ("x", Val.int 3)]
    [("brightness", Val.int 128)] rfl rfl

/-- C6: the orchestrating update always returns a structured
`{success, message}` outcome and never lets an exception escape: an
executor-side error raised during load, merge, or write is caught and
converted into a failure outcome carrying the exception text, and a
normal result is passed through unchanged. -/
theorem update_outcome_total (fs : FS) (scene_id : String)
    (states : List HAState) (failAt : Option WStep) :
    (∀ e : Err,
      (update_scenes_file_sync fs scene_id (snapshotOf states) failAt).2 =
        .error e →
      (update_scene_entities fs scene_id states failAt).2 = ⟨false, errStr e⟩) ∧
    ∀ (su : Bool) (m : String),
      (update_scenes_file_sync fs scene_id (snapshotOf states) failAt).2 =
        .ok (su, m) →
      (update_scene_entities fs scene_id states failAt).2 = ⟨su, m⟩ := by
  constructor
  · intro e he
    rcases hu : update_scenes_file_sync fs scene_id (snapshotOf states) failAt
      with ⟨fs', r⟩
    rw [hu] at he
    simp at he
    subst he
    simp [update_scene_entities, hu]
  · intro su m hm
    rcases hu : update_scenes_file_sync fs scene_id (snapshotOf states) failAt
      with ⟨fs', r⟩
    rw [hu] at hm
    simp at hm
    subst hm
    simp [update_scene_entities, hu]

/-- Witness for C6: a concrete caught write failure and a concrete
passed-through success. -/
theorem update_outcome_total_witness :
    (update_scene_entities exampleFS "s1" [] (some WStep.flush)).2 =
      ⟨false, errStr (.ioError .flush)⟩ ∧
    (update_scene_entities exampleFS "s1" [] none).2 =
      ⟨true, "Scene " ++ "s1" ++ " updated"⟩ :=
  ⟨(update_outcome_total exampleFS "s1" [] (some WStep.flush)).1
      (.ioError .flush) rfl,
   (update_outcome_total exampleFS "s1" [] none).2 true
      ("Scene " ++ "s1" ++ " updated") rfl⟩

/-- C8: round-trip — atomically writing a well-formed document and
loading the file back yields exactly the document written, record
order and unrecognized extra fields included. -/
theorem load_after_write_roundtrip (fs : FS) (l : List Val) (ts : List Tok)
    (h : serV (.list l) = .ok ts) :
    (write_scenes_file_sync fs (.list l) none).2 = none ∧
    load_scenes_file_sync (write_scenes_file_sync fs (.list l) none).1 =
      .list l := by
  rw [write_scenes_file_sync_ok fs (.list l) ts h]
  exact ⟨rfl, load_scenes_file_sync_write l ts h⟩

/-- Witness for C8 on the example document (two records in fixed order,
one with an extra uninterpreted field). -/
theorem load_after_write_roundtrip_witness :
    (write_scenes_file_sync ⟨none, none⟩ (.list exampleDoc) none).2 = none ∧
    load_scenes_file_sync
        (write_scenes_file_sync ⟨none, none⟩ (.list exampleDoc) none).1 =
      .list exampleDoc :=
  load_after_write_roundtrip ⟨none, none⟩ exampleDoc exampleToks rfl

/-- C2: merge correctness end to end.  For a record declaring entities
A and B, where the captured snapshot holds the capture-loop entry for
A's live state and no entry for B, after a successful update the stored
record's entry for B is exactly unchanged, and its entry for A carries
the captured state value in `state` and, under `attributes`, exactly
the captured attributes for A with every key of the fixed exclusion
list (`device_id`, `area_id`, `zone_id`) removed. -/
theorem update_merge_correct
    (fs : FS) (scene_id A B : String) (states : List HAState) (stA : HAState)
    (scenes : List Val) (index : Nat) (scene entities : Dict)
    (vA entryB : Val)
    (hload : load_scenes_file_sync fs = .list scenes)
    (hfind : findScene scenes scene_id 0 = some (index, scene))
    (hents : dgetD scene "entities" (.dict []) = .dict entities)
    (hnodup : (entities.map Prod.fst).Nodup)
    (hA : dget entities A = some vA)
    (hB : dget entities B = some entryB)
    (hsnapA : alookup (snapshotOf states) A = some (captureState stA))
    (hsnapB : alookup (snapshotOf states) B = none)
    (hsucc : (update_scene_entities fs scene_id states none).2.success = true) :
    ∃ (scenes' : List Val) (scene' entities' entryA : Dict),
      load_scenes_file_sync (update_scene_entities fs scene_id states none).1 =
        .list scenes' ∧
      scenes'.get? index = some (.dict scene') ∧
      dget scene' "entities" = some (.dict entities') ∧
      dget entities' B = some entryB ∧
      dget entities' A = some (.dict entryA) ∧
      dget entryA "state" = some (.str (pyStr stA.state)) ∧
      dget entryA "attributes" =
        some (.dict ((captureAttrs stA.attributes).filter
          (fun kv => !SCENE_ATTRIBUTE_EXCLUDE.contains kv.1))) := by
  cases hw : serV (Val.list (scenes.set index
      (.dict (dset scene "entities"
        (.dict (mergeEntities entities (snapshotOf states))))))) with
  | error e =>
    exfalso
    have hwf : write_scenes_file_sync fs (Val.list (scenes.set index
        (.dict (dset scene "entities"
          (.dict (mergeEntities entities (snapshotOf states))))))) none =
        ({ fs with tmp := none }, some Err.representerError) := by
      simp [write_scenes_file_sync, hw, unlinkTmp]
    have hupd := update_sync_write_err fs { fs with tmp := none } scene_id
      (snapshotOf states) none scenes index scene entities Err.representerError
      hload hfind hents hwf
    simp [update_scene_entities, hupd] at hsucc
  | ok ts =>
    have hwf := write_scenes_file_sync_ok fs (Val.list (scenes.set index
      (.dict (dset scene "entities"
        (.dict (mergeEntities entities (snapshotOf states))))))) ts hw
    have hupd := update_sync_write_ok fs ⟨some ts, none⟩ scene_id
      (snapshotOf states) none scenes index scene entities
      hload hfind hents hwf
    have hue : update_scene_entities fs scene_id states none =
        (⟨some ts, none⟩, ⟨true, "Scene " ++ scene_id ++ " updated"⟩) := by
      simp [update_scene_entities, hupd]
    have hidx0 := findScene_get scenes scene_id 0 index scene hfind
    have hidx : scenes.get? index = some (.dict scene) := by
      simpa using hidx0.2
    have hlen : index < scenes.length := by
      rw [List.get?_eq_getElem?] at hidx
      exact (List.getElem?_eq_some.mp hidx).1
    refine ⟨scenes.set index (.dict (dset scene "entities"
        (.dict (mergeEntities entities (snapshotOf states))))),
      dset scene "entities" (.dict (mergeEntities entities (snapshotOf states))),
      mergeEntities entities (snapshotOf states),
      mergeEntry (asEntryDict (some vA)) (captureState stA),
      ?_, ?_, ?_, ?_, ?_, ?_, ?_⟩
    · rw [hue]
      exact load_scenes_file_sync_write _ ts hw
    · rw [List.get?_eq_getElem?]
      exact List.getElem?_set_eq_of_lt _ hlen
    · exact dget_dset_self scene "entities" _
    · rw [mergeEntities_dget_nosnap entities (snapshotOf states) B hsnapB]
      exact hB
    · exact mergeEntities_dget_found entities (snapshotOf states) A
        (captureState stA) vA hnodup hsnapA hA
    · have hcs : captureState stA =
          [("state", Val.str (pyStr stA.state)),
           ("attributes", Val.dict (captureAttrs stA.attributes))] := rfl
      rw [hcs, mergeEntry_state_attrs, dget_dset_self]
    · have hcs : captureState stA =
          [("state", Val.str (pyStr stA.state)),
           ("attributes", Val.dict (captureAttrs stA.attributes))] := rfl
      have hne : ("state" : String) ≠ "attributes" := by decide
      rw [hcs, mergeEntry_state_attrs, dget_dset_ne _ _ _ _ hne,
        dget_dset_self, captureAttrs_no_excluded]

/-- Witness for C2: updating the example document with a fresh capture
of `light.a` (and no capture for `switch.b`). -/
theorem update_merge_correct_witness :
    ∃ (scenes' : List Val) (scene' entities' entryA : Dict),
      load_scenes_file_sync
          (update_scene_entities exampleFS "s1" [exampleStateA] none).1 =
        .list scenes' ∧
      scenes'.get? 0 = some (.dict scene') ∧
      dget scene' "entities" = some (.dict entities') ∧
      dget entities' "switch.b" = some (.dict [("state", .str "off")]) ∧
      dget entities' "light.a" = some (.dict entryA) ∧
      dget entryA "state" = some (.str (pyStr exampleStateA.state)) ∧
      dget entryA "attributes" =
        some (.dict ((captureAttrs exampleStateA.attributes).filter
          (fun kv => !SCENE_ATTRIBUTE_EXCLUDE.contains kv.1))) :=
  update_merge_correct exampleFS "s1" "light.a" "switch.b" [exampleStateA]
    exampleStateA exampleDoc 0 exampleScene1 exampleEntities1
    (.dict [("state", .str "on")]) (.dict [("state", .str "off")])
    rfl rfl rfl (by decide) rfl rfl rfl rfl rfl

end ScenePlus
